import Mathlib

/-
Verification of the editing-model core of a single-line/multi-line text input
widget (source: src/lib.rs). The embedding models:

  * masked_value, set_section_values, placeholder visibility and the
    cursor-display rule, translated directly from the corresponding
    source functions;
  * action resolution (source: keyboard, the valid_actions filter plus the
    per-input find), translated directly from the source iterator chain;
  * the per-frame keyboard system (source: keyboard): per-input action
    dispatch, selection-anchor handling, submit capture and the single
    end-of-frame submit-event emission, and the undo/redo stacks.

Strings are modelled as lists of Unicode scalar values (List Char), and all
positions are codepoint indices, matching the spec's position arithmetic.
The text-shaping editor the source delegates low-level edits to is not part
of this repository; those operations are modelled from the spec (each such
definition carries a doc comment saying so).
-/

set_option maxHeartbeats 1000000

namespace BevySimpleTextInput

/-- Physical key codes are abstracted as naturals; only equality is used. -/
abbrev KeyCode := Nat

/-- Text navigation actions that can be bound via the navigation bindings
(source: enum TextInputAction). -/
inductive TextInputAction
  | CharLeft
  | CharRight
  | WordLeft
  | WordRight
  | LineStart
  | LineEnd
  | LineUp
  | LineDown
  | TextStart
  | TextEnd
  | DeletePrev
  | DeleteNext
  | Submit
  | NewLine
  | SelectAll
  | CutAction
  | CopyAction
  | PasteAction
  | UndoAction
  | RedoAction
deriving DecidableEq

/-- A binding for text navigation: a primary key and the modifiers that must
all be held (source: struct TextInputBinding). -/
structure TextInputBinding where
  key : KeyCode
  modifiers : List KeyCode
deriving DecidableEq

/-- The text input's settings (source: struct TextInputSettings). -/
structure TextInputSettings where
  multiline : Bool
  retain_on_submit : Bool
  mask_character : Option Char
deriving DecidableEq

/-- Masked projection of the value (source: fn masked_value): with a mask
character configured, every codepoint is replaced by the mask character;
otherwise the value is returned unchanged. -/
def masked_value (value : List Char) (mask : Option Char) : List Char :=
  match mask with
  | none => value
  | some c => value.map (fun _ => c)

/-- Splitting of the displayed value into the pre-selection, selection and
post-selection text sections (source: fn set_section_values). The source
writes into three section slots; the model returns them as a triple. Slice
positions are codepoint indices (the source slices at byte indices that are
required to lie on character boundaries, which correspond one-to-one to
codepoint indices). -/
def set_section_values (value : List Char) (bounds : Option (Nat × Nat)) :
    List Char × List Char × List Char :=
  match bounds with
  | some (f, t) =>
    let start := min f t
    let e := max f t
    (value.take start, (value.take e).drop start, value.drop e)
  | none => (value, [], [])

/-- Visibility states of the placeholder text (the two values the source
assigns to the placeholder's Visibility). -/
inductive Visibility
  | Inherited
  | Hidden
deriving DecidableEq

/-- Placeholder visibility as computed by the per-frame system
(source: fn show_hide_placeholder): Inherited when the value is empty and
the input is inactive, Hidden otherwise. -/
def show_hide_placeholder (value : List Char) (inactive : Bool) : Visibility :=
  if value.isEmpty && inactive then Visibility.Inherited else Visibility.Hidden

/-- Placeholder visibility as computed at widget creation
(source: fn create, the placeholder_visible binding). -/
def create_placeholder_visible (inactive : Bool) (value : List Char) : Bool :=
  inactive && value.isEmpty

/-- Display states of the cursor indicator node. -/
inductive Display
  | Flex
  | None
deriving DecidableEq

/-- Cursor-indicator display rule (source: fn set_positions, the assignment
to cursor_style.display): hidden while the input is inactive. -/
def set_positions_cursor_display (inactive : Bool) : Display :=
  if inactive then Display.None else Display.Flex

/-- Per-frame list of bindings whose required modifiers are all held,
keyed by their primary key (source: fn keyboard, the valid_actions
iterator: filter by modifiers, then map to (key, action)). -/
def valid_actions (bindings : List (TextInputAction × TextInputBinding))
    (pressed : List KeyCode) : List (KeyCode × TextInputAction) :=
  (bindings.filter
      (fun b => b.2.modifiers.all (fun m => pressed.contains m))).map
    (fun b => (b.2.key, b.1))

/-- Resolution of a pressed key to a navigation action (source: fn keyboard,
the valid_actions.find call on each input event). -/
def resolve_action (bindings : List (TextInputAction × TextInputBinding))
    (pressed : List KeyCode) (key_code : KeyCode) : Option TextInputAction :=
  ((valid_actions bindings pressed).find? (fun p => p.1 == key_code)).map
    (fun p => p.2)

/-- Modelled from the spec's words for comparison with resolve_action: the
resolver "returns the first action whose key matches and whose required
modifier set is a subset of held modifiers", scanning the binding table in
list order, and no action when no binding matches. -/
def resolve_action_spec (bindings : List (TextInputAction × TextInputBinding))
    (pressed : List KeyCode) (key_code : KeyCode) : Option TextInputAction :=
  (bindings.find?
      (fun b => b.2.key == key_code
        && b.2.modifiers.all (fun m => pressed.contains m))).map
    (fun b => b.1)

/-- ASCII whitespace test used by word-boundary motion (the spec fixes
word motion to be ASCII-whitespace-based). -/
def is_ascii_whitespace (c : Char) : Bool :=
  c = ' ' || c = '\t' || c = '\n' || c = '\r'

/-- Modelled from the spec: word motion to the left scans left over
whitespace and then over the previous word; if nothing is found it clamps
to the buffer start. -/
def word_left (buffer : List Char) (p : Nat) : Nat :=
  (((buffer.take p).reverse.dropWhile is_ascii_whitespace).dropWhile
    (fun c => !is_ascii_whitespace c)).length

/-- Modelled from the spec: word motion to the right scans right over the
current word and then over whitespace, landing at the start of the next
word; if nothing is found it clamps to the buffer end. -/
def word_right (buffer : List Char) (p : Nat) : Nat :=
  p + ((buffer.drop p).length -
    (((buffer.drop p).dropWhile (fun c => !is_ascii_whitespace c)).dropWhile
      is_ascii_whitespace).length)

/-- Cursor motions the source requests from the text editor
(source: fn keyboard, the Motion variants used in the action match). -/
inductive Motion
  | Left
  | Right
  | LeftWord
  | RightWord
  | Home
  | End
  | BufferStart
  | BufferEnd
  | Up
  | Down
deriving DecidableEq

/-- Modelled from the spec: the effect of each cursor motion on a codepoint
cursor position, in the single-line editing model. Char motion saturates at
the ends; Home and line start coincide with the buffer start (and End with
the buffer end) in the single-line model; vertical motion has nowhere to go
and leaves the cursor in place. -/
def apply_motion (buffer : List Char) (m : Motion) (p : Nat) : Nat :=
  match m with
  | .Left => p - 1
  | .Right => min (p + 1) buffer.length
  | .LeftWord => word_left buffer p
  | .RightWord => word_right buffer p
  | .Home => 0
  | .End => buffer.length
  | .BufferStart => 0
  | .BufferEnd => buffer.length
  | .Up => p
  | .Down => p

/-- Modelled from the spec: one item of an undoable change record (the spec
describes undo/redo as a stack of edits whose inverse is re-applied).
Applying an item replaces the removed text at start with the inserted
text. -/
structure ChangeItem where
  start : Nat
  removed : List Char
  inserted : List Char
deriving DecidableEq

/-- A change is a batch of change items, recorded between the start and the
finish of a frame's edits. -/
abbrev Change := List ChangeItem

/-- State of the text editor as visible to the keyboard system: the buffer
content, the cursor, the optional selection anchor (the source's
Selection::None versus Selection::Normal with an anchor cursor), the
undo and redo stacks and the clipboard content, plus the change items
recorded since the last start of change recording. -/
structure EditorState where
  buffer : List Char
  cursor : Nat
  selection : Option Nat
  undo : List Change
  redo : List Change
  clipboard : List Char
  pending : Change
deriving DecidableEq

/-- Modelled from the spec: inserting text at the (defensively clamped)
cursor, moving the cursor past the inserted text and recording the edit. -/
def insert_string (es : EditorState) (s : List Char) : EditorState :=
  let c := min es.cursor es.buffer.length
  { es with
    buffer := es.buffer.take c ++ s ++ es.buffer.drop c,
    cursor := c + s.length,
    pending := es.pending ++ [{ start := c, removed := [], inserted := s }] }

/-- Modelled from the spec: the selected text, when a selection exists, is
the span between the anchor and the cursor (in either order). -/
def copy_selection (es : EditorState) : Option (List Char) :=
  es.selection.map
    (fun a => (es.buffer.take (max a es.cursor)).drop (min a es.cursor))

/-- Modelled from the spec: deleting the selected span, leaving the cursor
at its start and recording the edit. Without a selection this is a no-op. -/
def delete_selection (es : EditorState) : EditorState :=
  match es.selection with
  | none => es
  | some a =>
    let s := min a es.cursor
    let e := min (max a es.cursor) es.buffer.length
    { es with
      buffer := es.buffer.take s ++ es.buffer.drop e,
      cursor := s,
      selection := none,
      pending := es.pending ++
        [{ start := s, removed := (es.buffer.take e).drop s, inserted := [] }] }

/-- Modelled from the spec: backspace deletes the selection when one exists,
otherwise removes the codepoint before the cursor when the cursor is not at
the start, and is a no-op at position zero. -/
def backspace (es : EditorState) : EditorState :=
  if es.selection.isSome then delete_selection es
  else if 0 < es.cursor then
    { es with
      buffer := es.buffer.take (es.cursor - 1) ++ es.buffer.drop es.cursor,
      cursor := es.cursor - 1,
      pending := es.pending ++
        [{ start := es.cursor - 1,
           removed := (es.buffer.take es.cursor).drop (es.cursor - 1),
           inserted := [] }] }
  else es

/-- Modelled from the spec: forward deletion deletes the selection when one
exists, otherwise removes the codepoint at the cursor when the cursor is
not at the end (leaving the cursor's numeric value unchanged), and is a
no-op at the buffer end. -/
def delete_next (es : EditorState) : EditorState :=
  if es.selection.isSome then delete_selection es
  else if es.cursor < es.buffer.length then
    { es with
      buffer := es.buffer.take es.cursor ++ es.buffer.drop (es.cursor + 1),
      pending := es.pending ++
        [{ start := es.cursor,
           removed := (es.buffer.take (es.cursor + 1)).drop es.cursor,
           inserted := [] }] }
  else es

/-- Modelled from the spec: applying one change item replaces its removed
text with its inserted text and places the cursor after the insertion. -/
def apply_change_item (es : EditorState) (item : ChangeItem) : EditorState :=
  { es with
    buffer := es.buffer.take item.start ++ item.inserted ++
      es.buffer.drop (item.start + item.removed.length),
    cursor := item.start + item.inserted.length }

/-- Modelled from the spec: applying a change applies its items in order. -/
def apply_change (es : EditorState) (c : Change) : EditorState :=
  c.foldl apply_change_item es

/-- Modelled from the spec: reversing a change swaps each item's removed and
inserted text and reverses the item order, yielding the inverse edit. -/
def reverse_change (c : Change) : Change :=
  (c.map (fun i =>
    { start := i.start, removed := i.inserted, inserted := i.removed })).reverse

/-- Editor actions the keyboard system requests from the editor
(source: fn keyboard, the Action values built in the action match). -/
inductive EditorAction
  | Motion (m : Motion)
  | Backspace
  | Delete
  | Enter
deriving DecidableEq

/-- Modelled from the spec: effect of each requested editor action. Motion
moves only the cursor; Enter inserts a newline at the cursor (replacing the
selection when one exists). -/
def apply_editor_action (es : EditorState) (a : EditorAction) : EditorState :=
  match a with
  | .Motion m => { es with cursor := apply_motion es.buffer m es.cursor }
  | .Backspace => backspace es
  | .Delete => delete_next es
  | .Enter => insert_string (delete_selection es) ['\n']

/-- Frame-local editing context of the keyboard system for one text input:
the value component's content, the editor state, the captured submitted
value, the flag marking that an undo or redo happened this frame and the
accumulated cursor-timer reset request (source: fn keyboard, the local
bindings text_input, editor, submitted_value, is_undo_redo and the
cursor_timer.should_reset updates). -/
structure FrameCtx where
  value : List Char
  es : EditorState
  submitted_value : Option (List Char)
  is_undo_redo : Bool
  should_reset : Bool
deriving DecidableEq

/-- Dispatch of one resolved action (source: fn keyboard, the match on the
resolved action). The result is the updated context together with the
possibly-updated select flag, the per-input timer reset flag and the editor
action to apply afterwards. Submit captures the current value (cloning it
when retain_on_submit is set, taking it and leaving the empty value
otherwise) and requests a motion to the buffer start; SelectAll anchors the
selection at the buffer start, forces the select flag and requests a motion
to the buffer end; Cut and Copy place the selected text (when any) on the
clipboard, Cut then deletes the selection while Copy forces the select flag
to avoid clearing the selection; Paste inserts the clipboard content; Undo
and Redo pop their stack (doing nothing when it is empty), discard the
pending change record, apply the popped change reversed and push it onto
the opposite stack. -/
def action_arm (settings : TextInputSettings) (select : Bool) (ctx : FrameCtx)
    (action : TextInputAction) :
    FrameCtx × Bool × Bool × Option EditorAction :=
  match action with
  | .CharLeft => (ctx, select, true, some (.Motion .Left))
  | .CharRight => (ctx, select, true, some (.Motion .Right))
  | .TextStart => (ctx, select, true, some (.Motion .BufferStart))
  | .TextEnd => (ctx, select, true, some (.Motion .BufferEnd))
  | .LineStart => (ctx, select, true, some (.Motion .Home))
  | .LineEnd => (ctx, select, true, some (.Motion .End))
  | .WordLeft => (ctx, select, true, some (.Motion .LeftWord))
  | .WordRight => (ctx, select, true, some (.Motion .RightWord))
  | .LineUp => (ctx, select, true, some (.Motion .Up))
  | .LineDown => (ctx, select, true, some (.Motion .Down))
  | .DeletePrev => (ctx, select, true, some .Backspace)
  | .DeleteNext => (ctx, select, true, some .Delete)
  | .NewLine =>
    (ctx, select, true, if settings.multiline then some .Enter else none)
  | .Submit =>
    ({ ctx with
        submitted_value := some ctx.value,
        value := if settings.retain_on_submit then ctx.value else [] },
      select, false, some (.Motion .BufferStart))
  | .SelectAll =>
    ({ ctx with es := { ctx.es with selection := some 0 } },
      true, true, some (.Motion .BufferEnd))
  | .CutAction =>
    let es :=
      { ctx.es with clipboard := (copy_selection ctx.es).getD ctx.es.clipboard }
    ({ ctx with es := delete_selection es }, select, true, none)
  | .CopyAction =>
    let es :=
      { ctx.es with clipboard := (copy_selection ctx.es).getD ctx.es.clipboard }
    ({ ctx with es := es }, true, true, none)
  | .PasteAction =>
    ({ ctx with es := insert_string ctx.es ctx.es.clipboard },
      select, true, none)
  | .UndoAction =>
    match ctx.es.undo with
    | [] => ({ ctx with is_undo_redo := true }, select, true, none)
    | c :: rest =>
      let rc := reverse_change c
      let es1 := apply_change { ctx.es with undo := rest, pending := [] } rc
      ({ ctx with
          es := { es1 with redo := rc :: es1.redo },
          is_undo_redo := true }, select, true, none)
  | .RedoAction =>
    match ctx.es.redo with
    | [] => ({ ctx with is_undo_redo := true }, select, true, none)
    | c :: rest =>
      let rc := reverse_change c
      let es1 := apply_change { ctx.es with redo := rest, pending := [] } rc
      ({ ctx with
          es := { es1 with undo := rc :: es1.undo },
          is_undo_redo := true }, select, true, none)

/-- Application of one resolved action (source: fn keyboard, the body of the
per-input branch for a resolved action): when the select modifier is held
and no selection exists, the anchor is first set to the current cursor;
then the action arm runs and its requested editor action (if any) is
applied; finally, unless the (possibly arm-updated) select flag is set, the
selection is cleared, and the per-input timer reset flag is folded into the
accumulated one. -/
def apply_action (settings : TextInputSettings) (select0 : Bool)
    (ctx : FrameCtx) (action : TextInputAction) : FrameCtx :=
  let ctx0 :=
    if select0 && ctx.es.selection.isNone then
      { ctx with es := { ctx.es with selection := some ctx.es.cursor } }
    else ctx
  match action_arm settings select0 ctx0 action with
  | (ctx1, sel, t, ea) =>
    let ctx2 :=
      match ea with
      | some a => { ctx1 with es := apply_editor_action ctx1.es a }
      | none => ctx1
    let ctx3 :=
      if sel then ctx2 else { ctx2 with es := { ctx2.es with selection := none } }
    { ctx3 with should_reset := ctx3.should_reset || t }

/-- Logical keys of an input event the keyboard system distinguishes when no
action is resolved (source: fn keyboard, the match on input.logical_key). -/
inductive LogicalKey
  | space
  | character (s : List Char)
  | other
deriving DecidableEq

/-- One keyboard input event, as read from the event queue: the pressed
state, the physical key code and the logical key. -/
structure KeyboardInputEvent where
  pressed : Bool
  key_code : KeyCode
  logical_key : LogicalKey
deriving DecidableEq

/-- Processing of one input event (source: fn keyboard, the body of the
per-input loop): released events are skipped; when a navigation action
resolves it is applied; otherwise a space or character logical key inserts
its text and requests a cursor-timer reset, and anything else is ignored. -/
def keyboard_input_step (bindings : List (TextInputAction × TextInputBinding))
    (pressed_keys : List KeyCode) (select : Bool)
    (settings : TextInputSettings) (ctx : FrameCtx)
    (input : KeyboardInputEvent) : FrameCtx :=
  if input.pressed then
    match resolve_action bindings pressed_keys input.key_code with
    | some action => apply_action settings select ctx action
    | none =>
      match input.logical_key with
      | .space => { ctx with es := insert_string ctx.es [' '], should_reset := true }
      | .character s => { ctx with es := insert_string ctx.es s, should_reset := true }
      | .other => ctx
  else ctx

/-- Persistent per-widget editing state across frames: the value component's
content, the editor cursor and selection, the undo and redo stacks and the
clipboard. -/
structure TextInputState where
  value : List Char
  cursor : Nat
  selection : Option Nat
  undo : List Change
  redo : List Change
  clipboard : List Char
deriving DecidableEq

/-- Result of one keyboard frame for one text input: the updated state, the
submit events written this frame (entity identifier paired with the
submitted text) and the cursor-timer reset request. -/
structure FrameOutput where
  state : TextInputState
  events : List (Nat × List Char)
  should_reset : Bool
deriving DecidableEq

/-- End-of-frame submit-event emission (source: fn keyboard, the single
submit_writer.send guarded by the captured submitted_value): one event
carrying the entity and the captured value when a submit happened this
frame, and no event otherwise. -/
def keyboard_events (entity : Nat) (submitted_value : Option (List Char)) :
    List (Nat × List Char) :=
  match submitted_value with
  | some v => [(entity, v)]
  | none => []

/-- Select flag for one frame (source: fn keyboard, the any_pressed check
over the configured selection modifiers): true when any selection modifier
is currently held. -/
def keyboard_select (selection_modifiers pressed_keys : List KeyCode) : Bool :=
  selection_modifiers.any (fun m => pressed_keys.contains m)

/-- Frame-local editing context at the start of a keyboard frame (source:
fn keyboard): the editor is loaded from the current value component (the
per-frame buffer sync), change recording starts empty and no submitted
value has been captured yet. -/
def keyboard_initial_ctx (st : TextInputState) : FrameCtx :=
  { value := st.value,
    es := { buffer := st.value, cursor := st.cursor, selection := st.selection,
            undo := st.undo, redo := st.redo, clipboard := st.clipboard,
            pending := [] },
    submitted_value := none, is_undo_redo := false, should_reset := false }

/-- One frame of the keyboard system for one text input (source: fn
keyboard): with no queued input events the system returns immediately; an
inactive input is skipped entirely; otherwise the select flag is derived
from the held selection modifiers, the editor is loaded from the current
value, every input event is processed in arrival order, at most one submit
event is written from the captured submitted value, a non-empty recorded
change (unless the frame performed an undo or redo) is pushed onto the undo
stack while clearing the redo stack, and the value component is refreshed
from the editor buffer unless a submit consumed it this frame. -/
def keyboard (bindings : List (TextInputAction × TextInputBinding))
    (selection_modifiers : List KeyCode) (pressed_keys : List KeyCode)
    (settings : TextInputSettings) (inactive : Bool) (entity : Nat)
    (inputs : List KeyboardInputEvent) (st : TextInputState) : FrameOutput :=
  if inputs.isEmpty then { state := st, events := [], should_reset := false }
  else if inactive then { state := st, events := [], should_reset := false }
  else
    let select := keyboard_select selection_modifiers pressed_keys
    let ctx := inputs.foldl
      (keyboard_input_step bindings pressed_keys select settings)
      (keyboard_initial_ctx st)
    let hist :=
      if !ctx.es.pending.isEmpty && !ctx.is_undo_redo then
        (ctx.es.pending :: ctx.es.undo, ([] : List Change))
      else (ctx.es.undo, ctx.es.redo)
    { state :=
        { value := if ctx.submitted_value.isSome then ctx.value else ctx.es.buffer,
          cursor := ctx.es.cursor,
          selection := ctx.es.selection,
          undo := hist.1,
          redo := hist.2,
          clipboard := ctx.es.clipboard },
      events := keyboard_events entity ctx.submitted_value,
      should_reset := ctx.should_reset }

/-- Motion actions, the actions whose arm requests a pure cursor motion
(source: fn keyboard, the arms that map to an Action::Motion value). -/
def is_motion_action : TextInputAction → Bool
  | .CharLeft | .CharRight | .WordLeft | .WordRight | .LineStart | .LineEnd
  | .LineUp | .LineDown | .TextStart | .TextEnd => true
  | _ => false

/-- Minimal binding table binding one key (code 13) to Submit, used to
exercise the submit path of the keyboard frame. -/
def submit_test_bindings : List (TextInputAction × TextInputBinding) :=
  [(TextInputAction.Submit, { key := 13, modifiers := [] })]

/-- One pressed input event for key code 13 with no character payload. -/
def submit_test_input : KeyboardInputEvent :=
  { pressed := true, key_code := 13, logical_key := LogicalKey.other }

/-- Minimal binding table binding key 90 to Undo and key 89 to Redo. -/
def undo_test_bindings : List (TextInputAction × TextInputBinding) :=
  [(TextInputAction.UndoAction, { key := 90, modifiers := [] }),
   (TextInputAction.RedoAction, { key := 89, modifiers := [] })]

/-- Concrete frame context with buffer ab, cursor 1 and no selection, used
as a witness input. -/
def test_ctx_a : FrameCtx :=
  { value := ['a', 'b'],
    es := { buffer := ['a', 'b'], cursor := 1, selection := none,
            undo := [], redo := [], clipboard := [], pending := [] },
    submitted_value := none, is_undo_redo := false, should_reset := false }

/-- Concrete frame context with buffer ab, cursor 2 and a selection anchored
at 1, used as a counterexample input. -/
def test_ctx_sel : FrameCtx :=
  { value := ['a', 'b'],
    es := { buffer := ['a', 'b'], cursor := 2, selection := some 1,
            undo := [], redo := [], clipboard := [], pending := [] },
    submitted_value := none, is_undo_redo := false, should_reset := false }

/-- Concrete frame context with a selection anchored at 0 and empty undo and
redo stacks, used as a counterexample input for the undo no-op claim. -/
def test_ctx_undo : FrameCtx :=
  { value := ['a'],
    es := { buffer := ['a'], cursor := 1, selection := some 0,
            undo := [], redo := [], clipboard := [], pending := [] },
    submitted_value := none, is_undo_redo := false, should_reset := false }

/-- Concrete persistent state with value a and cursor 1, used as a
counterexample input for the submit claims. -/
def test_state_a : TextInputState :=
  { value := ['a'], cursor := 1, selection := none,
    undo := [], redo := [], clipboard := [] }

/-- C3: for every string and every configured mask character m, the masked
projection substitutes every codepoint with m (it equals the replication of
m to the value's codepoint length), so it has the same codepoint length as
the value and consists solely of m; masked_value is a pure projection, so
the underlying value is retained unchanged. -/
theorem masked_value_replicate (value : List Char) (m : Char) :
    masked_value value (some m) = List.replicate value.length m ∧
    (masked_value value (some m)).length = value.length := by
  constructor
  · induction value with
    | nil => rfl
    | cons c t ih =>
      have ih2 : t.map (fun _ => m) = List.replicate t.length m := by
        simpa [masked_value] using ih
      simp [masked_value, List.replicate_succ, ih2]
  · simp [masked_value]

/-- C9: the placeholder is visible (Inherited) iff the buffer is empty and
the input is inactive; the creation-time computation agrees with the
per-frame one; and the per-frame visibility depends on the value only
through its emptiness, so it is a pure function of (buffer-empty,
inactive). -/
theorem show_hide_placeholder_iff (value : List Char) (inactive : Bool) :
    (show_hide_placeholder value inactive = Visibility.Inherited ↔
      (value.isEmpty && inactive) = true) ∧
    (create_placeholder_visible inactive value = (value.isEmpty && inactive)) ∧
    (∀ value2 : List Char, value2.isEmpty = value.isEmpty →
      show_hide_placeholder value2 inactive =
        show_hide_placeholder value inactive) := by
  refine ⟨?_, ?_, ?_⟩
  · unfold show_hide_placeholder
    split <;> simp_all
  · exact Bool.and_comm _ _
  · intro value2 h
    unfold show_hide_placeholder
    rw [h]

/-- Witness for show_hide_placeholder_iff: its inner hypothesis discharged
at concrete values. -/
theorem show_hide_placeholder_iff_witness :
    show_hide_placeholder ['b'] true = show_hide_placeholder ['a'] true :=
  (show_hide_placeholder_iff ['a'] true).2.2 ['b'] (by decide)

/-- C10: with both bounds at most the value's length (codepoint positions
standing for the source's byte positions on character boundaries), the
three sections concatenate back to the value and the middle section is the
span between the smaller and the larger bound; with no bounds the first
section is the whole value and the other two are empty. -/
theorem set_section_values_spec (value : List Char) (f t : Nat)
    (hf : f ≤ value.length) (ht : t ≤ value.length) :
    ((set_section_values value (some (f, t))).1 ++
        (set_section_values value (some (f, t))).2.1 ++
        (set_section_values value (some (f, t))).2.2 = value) ∧
    ((set_section_values value (some (f, t))).2.1 =
      (value.take (max f t)).drop (min f t)) ∧
    set_section_values value none = (value, [], []) := by
  refine ⟨?_, rfl, rfl⟩
  show value.take (min f t) ++ (value.take (max f t)).drop (min f t) ++
      value.drop (max f t) = value
  have h1 : (value.take (max f t)).take (min f t) = value.take (min f t) := by
    rw [List.take_take, Nat.min_eq_left min_le_max]
  rw [← h1, List.take_append_drop, List.take_append_drop]

/-- Witness for set_section_values_spec: hypotheses discharged at concrete
bounds given in reversed order. -/
theorem set_section_values_spec_witness :
    (set_section_values ['a', 'b', 'c'] (some (2, 1))).1 ++
        (set_section_values ['a', 'b', 'c'] (some (2, 1))).2.1 ++
        (set_section_values ['a', 'b', 'c'] (some (2, 1))).2.2 =
      ['a', 'b', 'c'] :=
  (set_section_values_spec ['a', 'b', 'c'] 2 1 (by decide) (by decide)).1

/-- C5: for a cursor position p within the buffer, CharRight then CharLeft
restores p when p is not already at the end; CharRight at the end leaves
the cursor unchanged (clamped), as does CharLeft at position zero. -/
theorem char_motion_round_trip (B : List Char) (p : Nat) (hp : p ≤ B.length) :
    (p < B.length →
      apply_motion B Motion.Left (apply_motion B Motion.Right p) = p) ∧
    (p = B.length → apply_motion B Motion.Right p = p) ∧
    (p = 0 → apply_motion B Motion.Left p = p) := by
  simp only [apply_motion]
  refine ⟨fun h => ?_, fun h => ?_, fun h => ?_⟩ <;> omega

/-- Witness for char_motion_round_trip: hypotheses discharged on the
two-character buffer at position 1. -/
theorem char_motion_round_trip_witness :
    apply_motion ['a', 'b'] Motion.Left
      (apply_motion ['a', 'b'] Motion.Right 1) = 1 :=
  (char_motion_round_trip ['a', 'b'] 1 (by decide)).1 (by decide)

/-- C7: an inactive text input ignores any batch of keyboard input: the
whole persistent state (value, cursor, selection, history, clipboard) is
unchanged and no submit event is emitted; and the cursor indicator is
hidden while inactive. -/
theorem inactive_ignores_input
    (bindings : List (TextInputAction × TextInputBinding))
    (selection_modifiers pressed_keys : List KeyCode)
    (settings : TextInputSettings) (entity : Nat)
    (inputs : List KeyboardInputEvent) (st : TextInputState) :
    (keyboard bindings selection_modifiers pressed_keys settings true entity
        inputs st).state = st ∧
    (keyboard bindings selection_modifiers pressed_keys settings true entity
        inputs st).events = [] ∧
    set_positions_cursor_display true = Display.None := by
  cases inputs <;> exact ⟨rfl, rfl, rfl⟩

/-- C4: the navigation-action resolver (the source's modifier filter
followed by the first key match) returns exactly the action of the first
binding in list order whose key equals the pressed key and whose required
modifier set is a subset of the held modifiers, and no action when no
binding matches. -/
theorem resolve_action_first_match
    (bindings : List (TextInputAction × TextInputBinding))
    (pressed : List KeyCode) (key_code : KeyCode) :
    resolve_action bindings pressed key_code =
      resolve_action_spec bindings pressed key_code := by
  induction bindings with
  | nil => rfl
  | cons hd tl ih =>
    by_cases hmods : hd.2.modifiers.all (fun m => pressed.contains m) = true <;>
      by_cases hkey : (hd.2.key == key_code) = true <;>
        simp_all [resolve_action, resolve_action_spec, valid_actions,
          List.filter_cons, List.find?_cons]

/-- C2 (amended): when the select modifier is held during a motion action
and no selection anchor exists, the anchor is set to the pre-motion cursor
position and the motion changes neither the editor buffer nor the value
(it moves only the cursor); and every action performed without the select
modifier clears the selection anchor, except Copy (which keeps the existing
selection) and SelectAll (which sets it). -/
theorem selection_semantics (settings : TextInputSettings) (ctx : FrameCtx)
    (a : TextInputAction) :
    (is_motion_action a = true → ctx.es.selection = none →
      ((apply_action settings true ctx a).es.selection = some ctx.es.cursor ∧
        (apply_action settings true ctx a).es.buffer = ctx.es.buffer ∧
        (apply_action settings true ctx a).value = ctx.value)) ∧
    (a ≠ TextInputAction.CopyAction → a ≠ TextInputAction.SelectAll →
      (apply_action settings false ctx a).es.selection = none) := by
  cases a with
  | CharLeft =>
    refine ⟨fun _ hsel => ?_, fun _ _ => rfl⟩
    simp [apply_action, action_arm, apply_editor_action, hsel]
  | CharRight =>
    refine ⟨fun _ hsel => ?_, fun _ _ => rfl⟩
    simp [apply_action, action_arm, apply_editor_action, hsel]
  | WordLeft =>
    refine ⟨fun _ hsel => ?_, fun _ _ => rfl⟩
    simp [apply_action, action_arm, apply_editor_action, hsel]
  | WordRight =>
    refine ⟨fun _ hsel => ?_, fun _ _ => rfl⟩
    simp [apply_action, action_arm, apply_editor_action, hsel]
  | LineStart =>
    refine ⟨fun _ hsel => ?_, fun _ _ => rfl⟩
    simp [apply_action, action_arm, apply_editor_action, hsel]
  | LineEnd =>
    refine ⟨fun _ hsel => ?_, fun _ _ => rfl⟩
    simp [apply_action, action_arm, apply_editor_action, hsel]
  | LineUp =>
    refine ⟨fun _ hsel => ?_, fun _ _ => rfl⟩
    simp [apply_action, action_arm, apply_editor_action, hsel]
  | LineDown =>
    refine ⟨fun _ hsel => ?_, fun _ _ => rfl⟩
    simp [apply_action, action_arm, apply_editor_action, hsel]
  | TextStart =>
    refine ⟨fun _ hsel => ?_, fun _ _ => rfl⟩
    simp [apply_action, action_arm, apply_editor_action, hsel]
  | TextEnd =>
    refine ⟨fun _ hsel => ?_, fun _ _ => rfl⟩
    simp [apply_action, action_arm, apply_editor_action, hsel]
  | DeletePrev => exact ⟨fun hm => absurd hm (by decide), fun _ _ => rfl⟩
  | DeleteNext => exact ⟨fun hm => absurd hm (by decide), fun _ _ => rfl⟩
  | Submit => exact ⟨fun hm => absurd hm (by decide), fun _ _ => rfl⟩
  | NewLine => exact ⟨fun hm => absurd hm (by decide), fun _ _ => rfl⟩
  | SelectAll =>
    exact ⟨fun hm => absurd hm (by decide), fun _ hs => absurd rfl hs⟩
  | CutAction => exact ⟨fun hm => absurd hm (by decide), fun _ _ => rfl⟩
  | CopyAction =>
    exact ⟨fun hm => absurd hm (by decide), fun hc _ => absurd rfl hc⟩
  | PasteAction => exact ⟨fun hm => absurd hm (by decide), fun _ _ => rfl⟩
  | UndoAction =>
    refine ⟨fun hm => absurd hm (by decide), fun _ _ => ?_⟩
    cases hu : ctx.es.undo <;> simp [apply_action, action_arm, hu]
  | RedoAction =>
    refine ⟨fun hm => absurd hm (by decide), fun _ _ => ?_⟩
    cases hr : ctx.es.redo <;> simp [apply_action, action_arm, hr]

/-- Witness for selection_semantics: hypotheses discharged for CharRight
with the select modifier held on a selection-free context with cursor 1. -/
theorem selection_semantics_witness :
    (apply_action ⟨false, false, none⟩ true test_ctx_a
        TextInputAction.CharRight).es.selection = some 1 :=
  ((selection_semantics ⟨false, false, none⟩ test_ctx_a
      TextInputAction.CharRight).1 (by decide) (by decide)).1

/-- Counterexample to C2 as stated: Copy performed without the select
modifier does not clear the selection anchor (the source forces the select
flag on Copy precisely to avoid clearing the selection). -/
theorem copy_keeps_selection_counterexample :
    (apply_action ⟨false, false, none⟩ false test_ctx_sel
        TextInputAction.CopyAction).es.selection = some 1 ∧
      (some 1 : Option Nat) ≠ none := by decide

/-- C8 (amended): Undo with an empty undo stack, and Redo with an empty
redo stack, leave the buffer, cursor, value and both history stacks
unchanged and raise no error; the selection anchor follows the generic
rule applied to every bound key action: it is cleared when the select
modifier is not held, and anchored at the cursor when the modifier is held
with no selection present. -/
theorem undo_redo_empty_noop (settings : TextInputSettings) (select0 : Bool)
    (ctx : FrameCtx) :
    (ctx.es.undo = [] →
      ((apply_action settings select0 ctx
            TextInputAction.UndoAction).es.buffer = ctx.es.buffer ∧
        (apply_action settings select0 ctx
            TextInputAction.UndoAction).es.cursor = ctx.es.cursor ∧
        (apply_action settings select0 ctx
            TextInputAction.UndoAction).value = ctx.value ∧
        (apply_action settings select0 ctx
            TextInputAction.UndoAction).es.undo = [] ∧
        (apply_action settings select0 ctx
            TextInputAction.UndoAction).es.redo = ctx.es.redo ∧
        (apply_action settings select0 ctx
            TextInputAction.UndoAction).es.selection =
          (if select0 then
            (if ctx.es.selection.isNone then some ctx.es.cursor
              else ctx.es.selection)
          else none))) ∧
    (ctx.es.redo = [] →
      ((apply_action settings select0 ctx
            TextInputAction.RedoAction).es.buffer = ctx.es.buffer ∧
        (apply_action settings select0 ctx
            TextInputAction.RedoAction).es.cursor = ctx.es.cursor ∧
        (apply_action settings select0 ctx
            TextInputAction.RedoAction).value = ctx.value ∧
        (apply_action settings select0 ctx
            TextInputAction.RedoAction).es.undo = ctx.es.undo ∧
        (apply_action settings select0 ctx
            TextInputAction.RedoAction).es.redo = [] ∧
        (apply_action settings select0 ctx
            TextInputAction.RedoAction).es.selection =
          (if select0 then
            (if ctx.es.selection.isNone then some ctx.es.cursor
              else ctx.es.selection)
          else none))) := by
  constructor
  · intro h
    cases select0 with
    | false => simp [apply_action, action_arm, h]
    | true =>
      cases hsel : ctx.es.selection.isNone <;>
        simp [apply_action, action_arm, h, hsel]
  · intro h
    cases select0 with
    | false => simp [apply_action, action_arm, h]
    | true =>
      cases hsel : ctx.es.selection.isNone <;>
        simp [apply_action, action_arm, h, hsel]

/-- Witness for undo_redo_empty_noop: both empty-stack hypotheses
discharged on a concrete context with empty history. -/
theorem undo_redo_empty_noop_witness :
    test_ctx_a.es.undo = [] ∧ test_ctx_a.es.redo = [] ∧
      (apply_action ⟨false, false, none⟩ false test_ctx_a
          TextInputAction.UndoAction).es.buffer = test_ctx_a.es.buffer ∧
      (apply_action ⟨false, false, none⟩ false test_ctx_a
          TextInputAction.RedoAction).es.buffer = test_ctx_a.es.buffer :=
  ⟨rfl, rfl,
    ((undo_redo_empty_noop ⟨false, false, none⟩ false test_ctx_a).1 rfl).1,
    ((undo_redo_empty_noop ⟨false, false, none⟩ false test_ctx_a).2 rfl).1⟩

/-- Counterexample to C8 as stated: with an existing selection anchor and
the select modifier not held, Undo on an empty undo stack clears the
selection (the generic non-extending-action rule still runs), so the
selection does not remain unchanged. -/
theorem undo_empty_clears_selection_counterexample :
    test_ctx_undo.es.undo = [] ∧
      test_ctx_undo.es.selection = some 0 ∧
      (apply_action ⟨false, false, none⟩ false test_ctx_undo
          TextInputAction.UndoAction).es.selection = none ∧
      (none : Option Nat) ≠ some 0 := by decide

/-- C1 (amended): Submit emits the prior value in both retain modes and
moves the cursor to the buffer start (position 0) in both retain modes;
with retain_on_submit false the value is cleared, with retain_on_submit
true the value is left unchanged (but the cursor still moves to 0 rather
than staying unchanged). -/
theorem submit_retain_behavior (m : Bool) (mask : Option Char)
    (st : TextInputState) (entity : Nat) :
    ((keyboard submit_test_bindings [] [] ⟨m, false, mask⟩ false entity
        [submit_test_input] st).state.value = [] ∧
      (keyboard submit_test_bindings [] [] ⟨m, false, mask⟩ false entity
        [submit_test_input] st).state.cursor = 0 ∧
      (keyboard submit_test_bindings [] [] ⟨m, false, mask⟩ false entity
        [submit_test_input] st).events = [(entity, st.value)]) ∧
    ((keyboard submit_test_bindings [] [] ⟨m, true, mask⟩ false entity
        [submit_test_input] st).state.value = st.value ∧
      (keyboard submit_test_bindings [] [] ⟨m, true, mask⟩ false entity
        [submit_test_input] st).state.cursor = 0 ∧
      (keyboard submit_test_bindings [] [] ⟨m, true, mask⟩ false entity
        [submit_test_input] st).events = [(entity, st.value)]) :=
  ⟨⟨rfl, rfl, rfl⟩, ⟨rfl, rfl, rfl⟩⟩

/-- Counterexample to C1 as stated: with retain_on_submit true and the
cursor at position 1 in a one-character value, Submit moves the cursor to
0 instead of leaving it unchanged. -/
theorem submit_retain_moves_cursor_counterexample :
    test_state_a.cursor = 1 ∧
      (keyboard submit_test_bindings [] [] ⟨false, true, none⟩ false 0
          [submit_test_input] test_state_a).state.cursor = 0 ∧
      (0 : Nat) ≠ 1 := by decide

/-- Helper for the submit-batch analysis: every application of the Submit
action captures the context's current value as the submitted value. -/
theorem apply_action_submit_some (settings : TextInputSettings)
    (select : Bool) (ctx : FrameCtx) :
    (apply_action settings select ctx
        TextInputAction.Submit).submitted_value = some ctx.value := by
  cases hsel : select && ctx.es.selection.isNone <;>
    simp [apply_action, action_arm, hsel] <;> split <;> rfl

/-- Helper for the submit-batch analysis: every action other than Submit
leaves the captured submitted value untouched. -/
theorem apply_action_preserves_submitted (settings : TextInputSettings)
    (sel : Bool) (ctx : FrameCtx) (a : TextInputAction)
    (h : a ≠ TextInputAction.Submit) :
    (apply_action settings sel ctx a).submitted_value = ctx.submitted_value := by
  cases a
  case Submit => exact absurd rfl h
  all_goals
    cases hc : sel && ctx.es.selection.isNone <;>
      first
        | (simp [apply_action, action_arm, apply_editor_action, hc] <;>
            first | rfl | (split <;> rfl))
        | (cases hu : ctx.es.undo <;>
            simp [apply_action, action_arm, hc, hu] <;>
              first | rfl | (split <;> rfl))
        | (cases hr : ctx.es.redo <;>
            simp [apply_action, action_arm, hc, hr] <;>
              first | rfl | (split <;> rfl))
        | (cases hm : settings.multiline <;>
            simp [apply_action, action_arm, apply_editor_action, hc, hm] <;>
              first | rfl | (split <;> rfl))

/-- Helper for the submit-batch analysis: an input event that is not a
Submit activation (released, unresolved, or resolving to another action)
leaves the captured submitted value untouched. -/
theorem keyboard_input_step_preserves_submitted
    (bindings : List (TextInputAction × TextInputBinding))
    (pressed_keys : List KeyCode) (sel : Bool) (settings : TextInputSettings)
    (ctx : FrameCtx) (input : KeyboardInputEvent)
    (h : input.pressed = true →
      resolve_action bindings pressed_keys input.key_code ≠
        some TextInputAction.Submit) :
    (keyboard_input_step bindings pressed_keys sel settings ctx
        input).submitted_value = ctx.submitted_value := by
  cases hp : input.pressed with
  | false => simp [keyboard_input_step, hp]
  | true =>
    cases hr : resolve_action bindings pressed_keys input.key_code with
    | none =>
      cases hl : input.logical_key <;> simp [keyboard_input_step, hp, hr, hl]
    | some a =>
      have ha : a ≠ TextInputAction.Submit := by
        intro he
        exact (h hp) (by rw [hr, he])
      simp only [keyboard_input_step, hp, hr, if_true]
      exact apply_action_preserves_submitted settings sel ctx a ha

/-- Helper for the submit-batch analysis: processing a run of input events
containing no Submit activation leaves the captured submitted value
untouched. -/
theorem foldl_preserves_submitted
    (bindings : List (TextInputAction × TextInputBinding))
    (pressed_keys : List KeyCode) (sel : Bool)
    (settings : TextInputSettings) :
    ∀ (post : List KeyboardInputEvent),
      (∀ j ∈ post, j.pressed = true →
        resolve_action bindings pressed_keys j.key_code ≠
          some TextInputAction.Submit) →
      ∀ c : FrameCtx,
        (post.foldl (keyboard_input_step bindings pressed_keys sel settings)
            c).submitted_value = c.submitted_value := by
  intro post
  induction post with
  | nil => intro _ c; rfl
  | cons j t ih =>
    intro hpost c
    rw [List.foldl_cons,
      ih (fun x hx hp => hpost x (List.mem_cons_of_mem j hx) hp)
        (keyboard_input_step bindings pressed_keys sel settings c j)]
    exact keyboard_input_step_preserves_submitted bindings pressed_keys sel
      settings c j (hpost j (List.mem_cons_self j t))

/-- Helper for the submit-batch analysis: the end-of-frame emission never
produces more than one event. -/
theorem keyboard_events_len (e : Nat) (sv : Option (List Char)) :
    (keyboard_events e sv).length ≤ 1 := by
  cases sv <;> simp [keyboard_events]

/-- C6 (amended): for every binding table, every text input and every frame
batch, at most one submit event is emitted; and for every batch containing
at least one Submit activation, written as pre plus a Submit-activating
input i plus an activation-free remainder post (so i is the last
activation), exactly one submit event is emitted, carrying the source
widget identifier and the frame-local value captured by that last Submit
activation (the value component as of just before i was processed). -/
theorem submit_batch_single_event
    (bindings : List (TextInputAction × TextInputBinding))
    (selection_modifiers pressed_keys : List KeyCode)
    (settings : TextInputSettings) (entity : Nat) (st : TextInputState)
    (pre post : List KeyboardInputEvent) (i : KeyboardInputEvent)
    (hi : i.pressed = true)
    (hres : resolve_action bindings pressed_keys i.key_code =
      some TextInputAction.Submit)
    (hpost : ∀ j ∈ post, j.pressed = true →
      resolve_action bindings pressed_keys j.key_code ≠
        some TextInputAction.Submit) :
    (∀ (inactive : Bool) (inputs : List KeyboardInputEvent)
        (st2 : TextInputState),
      (keyboard bindings selection_modifiers pressed_keys settings inactive
          entity inputs st2).events.length ≤ 1) ∧
    (keyboard bindings selection_modifiers pressed_keys settings false entity
        (pre ++ i :: post) st).events =
      [(entity,
        (pre.foldl
          (keyboard_input_step bindings pressed_keys
            (keyboard_select selection_modifiers pressed_keys) settings)
          (keyboard_initial_ctx st)).value)] ∧
    (keyboard bindings selection_modifiers pressed_keys settings false entity
        (pre ++ i :: post) st).events.length = 1 := by
  have hne : (pre ++ i :: post).isEmpty = false := by simp
  have hev : (keyboard bindings selection_modifiers pressed_keys settings
      false entity (pre ++ i :: post) st).events =
      keyboard_events entity
        ((pre ++ i :: post).foldl
          (keyboard_input_step bindings pressed_keys
            (keyboard_select selection_modifiers pressed_keys) settings)
          (keyboard_initial_ctx st)).submitted_value := by
    simp only [keyboard]
    rw [hne]
    rfl
  have hsub : ((pre ++ i :: post).foldl
      (keyboard_input_step bindings pressed_keys
        (keyboard_select selection_modifiers pressed_keys) settings)
      (keyboard_initial_ctx st)).submitted_value =
      some ((pre.foldl
        (keyboard_input_step bindings pressed_keys
          (keyboard_select selection_modifiers pressed_keys) settings)
        (keyboard_initial_ctx st)).value) := by
    rw [List.foldl_append, List.foldl_cons,
      foldl_preserves_submitted bindings pressed_keys
        (keyboard_select selection_modifiers pressed_keys) settings post hpost]
    have hstep : keyboard_input_step bindings pressed_keys
        (keyboard_select selection_modifiers pressed_keys) settings
        (pre.foldl
          (keyboard_input_step bindings pressed_keys
            (keyboard_select selection_modifiers pressed_keys) settings)
          (keyboard_initial_ctx st)) i =
        apply_action settings
          (keyboard_select selection_modifiers pressed_keys)
          (pre.foldl
            (keyboard_input_step bindings pressed_keys
              (keyboard_select selection_modifiers pressed_keys) settings)
            (keyboard_initial_ctx st)) TextInputAction.Submit := by
      simp [keyboard_input_step, hi, hres]
    rw [hstep, apply_action_submit_some]
  refine ⟨?_, ?_, ?_⟩
  · intro inactive inputs st2
    cases inputs with
    | nil => simp [keyboard]
    | cons a l =>
      cases inactive with
      | true => simp [keyboard]
      | false => exact keyboard_events_len entity _
  · rw [hev, hsub]
    rfl
  · rw [hev, hsub]
    rfl

/-- Counterexample to C6 as stated: two Submit activations within one
frame's input batch emit one submit event, not two. -/
theorem submit_twice_one_event_counterexample :
    (keyboard submit_test_bindings [] [] ⟨false, false, none⟩ false 0
        (List.replicate 2 submit_test_input) test_state_a).events.length = 1 ∧
      (1 : Nat) ≠ 2 := by decide

/-- Witness for submit_batch_single_event: hypotheses discharged on the
one-binding submit table for a batch of one Submit activation followed by
a non-activating input. -/
theorem submit_batch_single_event_witness :
    (keyboard submit_test_bindings [] [] ⟨false, false, none⟩ false 7
        ([] ++ submit_test_input ::
          [{ pressed := true, key_code := 99,
             logical_key := LogicalKey.other }]) test_state_a).events.length
      = 1 :=
  (submit_batch_single_event submit_test_bindings [] [] ⟨false, false, none⟩
      7 test_state_a []
      [{ pressed := true, key_code := 99, logical_key := LogicalKey.other }]
      submit_test_input rfl rfl (by decide)).2.2

end BevySimpleTextInput
